import Mathlib

/-!
Verification of the `arc` archiving/compression wrapper library.

The repository's own code is glue around an external archiving library
(`github.com/mholt/archives`), the Go standard library (`os`, `path/filepath`,
`regexp`) and an in-memory `bytes.Buffer`.  We shallowly embed the repository's
functions (`Compress`, `Decompress`, `ExcludeFilesFilter`, `IncludeFilesFilter`,
the v2 `Archive` and `ArchiveWithFilter` from `part_000`, and the legacy v1
`Archive` from `archiver.go`) over explicit models of those external
collaborators: compression formats are modelled by their streaming
writer/reader contract, the regexp engine is an abstract compile/match pair,
`path/filepath` is implemented over character lists, and the filesystem is an
explicit state record.  Archive runs additionally record an event trace so
that statements about step order ("removes the destination first", "returns
before enumerating") are provable.

Definitions come first, theorems after.
-/

/-! ### Model of Go's `path/filepath` (unix separators)

`filepath.Clean` and `filepath.Base` from the Go standard library, used by
`Archive`/`ArchiveWithFilter` to compute the top-level name inside the
archive.  Implemented over `List Char` so every proof can evaluate them. -/

namespace GoPath

/-- Split a character list at every `/`, keeping empty segments, exactly as
the slash-separated elements Go's path functions iterate over. -/
def splitSlash : List Char → List (List Char)
  | [] => [[]]
  | c :: cs =>
    let r := splitSlash cs
    if c = '/' then [] :: r
    else
      match r with
      | [] => [[c]]
      | g :: gs => (c :: g) :: gs

/-- Join path elements back with `/` separators. -/
def joinSlash : List (List Char) → List Char
  | [] => []
  | [g] => g
  | g :: gs => g ++ '/' :: joinSlash gs

/-- The element loop of Go's `filepath.Clean`: skip empty and `.` elements,
resolve `..` against the output stack (a rooted path drops a `..` at the
root; an unrooted path keeps leading `..` elements), push everything else.
The output stack is kept reversed. -/
def cleanLoop (rooted : Bool) : List (List Char) → List (List Char) → List (List Char)
  | out, [] => out
  | out, c :: cs =>
    if c = [] ∨ c = ['.'] then cleanLoop rooted out cs
    else if c = ['.', '.'] then
      match out with
      | [] => if rooted then cleanLoop rooted [] cs else cleanLoop rooted [['.', '.']] cs
      | top :: rest =>
        if top = ['.', '.'] then cleanLoop rooted (c :: top :: rest) cs
        else cleanLoop rooted rest cs
    else cleanLoop rooted (c :: out) cs

/-- Go's `filepath.Clean` on a character list: the empty path cleans to `.`,
a rooted result keeps its leading `/`, and an empty unrooted result becomes
`.`. -/
def cleanChars (path : List Char) : List Char :=
  if path = [] then ['.']
  else
    let rooted := path.head? = some '/'
    let out := (cleanLoop rooted [] (splitSlash path)).reverse
    let joined := joinSlash out
    if rooted then '/' :: joined
    else if joined = [] then ['.'] else joined

/-- Go's `filepath.Clean` (unix). -/
def Clean (path : String) : String := ⟨cleanChars path.data⟩

/-- Go's `filepath.Base` on a character list: the empty path gives `.`,
trailing slashes are stripped, the last element is returned, and a path of
only slashes gives `/`. -/
def baseChars (path : List Char) : List Char :=
  if path = [] then ['.']
  else
    match (splitSlash path).reverse.dropWhile (fun g => g.isEmpty) with
    | [] => ['/']
    | c :: _ => c

/-- Go's `filepath.Base` (unix). -/
def Base (path : String) : String := ⟨baseChars path.data⟩

end GoPath

namespace Arc

/-! ### Codec model (part_003: Compress / Decompress)

A compression format from the external library is a streaming writer plus a
streaming reader.  `writeEmit data` is the byte sequence the writer has pushed
into its sink after the single `Write(data)` call made by `Compress`;
`closeEmit data` is what the writer pushes during the subsequent `Close`
(final block flush, stream trailer).  `readAll` is the reader's semantics on a
byte stream: the decoded bytes, or a decoding error such as an unexpected
EOF on a truncated stream. -/
structure Compression where
  openWriterFails : Bool
  writeFails : Bool
  writeEmit : List Nat → List Nat
  closeEmit : List Nat → List Nat
  openReaderFails : List Nat → Bool
  readAll : List Nat → Except String (List Nat)

/-- The `Compress` function of `part_003`, with the sink made explicit.
Returns the pair (returned value, final sink contents).  The Go function
allocates an empty `bytes.Buffer`, opens the format's writer over it with
`defer compressor.Close()`, writes `data`, and returns
`compressedBuf.Bytes()`.  Go evaluates the return expression first and runs
the deferred `Close` afterwards, so the returned slice is the sink's contents
after `Write` but before `Close`, while the final sink additionally holds
what `Close` emits. -/
def CompressRun (c : Compression) (data : List Nat) :
    Except String (List Nat) × List Nat :=
  if c.openWriterFails then
    (.error "Failed to create compressor", [])
  else
    let sinkAfterWrite := c.writeEmit data
    if c.writeFails then
      (.error "Write to compressor failed", sinkAfterWrite ++ c.closeEmit data)
    else
      (.ok sinkAfterWrite, sinkAfterWrite ++ c.closeEmit data)

/-- The value `Compress` hands back to its caller. -/
def Compress (c : Compression) (data : List Nat) : Except String (List Nat) :=
  (CompressRun c data).1

/-- The `Decompress` function of `part_003`: opens the format's reader over
`data` (header validation can fail at open), then copies all decompressed
bytes out of it. -/
def Decompress (c : Compression) (data : List Nat) : Except String (List Nat) :=
  if c.openReaderFails data then
    .error "Failed to open decompression reader"
  else
    c.readAll data

/-- Modelled from the spec: the `gz` compression format supplied by the
external archiving library, which is not part of this repository.  The spec
treats codecs as external collaborators bound by their streaming contract:
the writer emits a stream header during `Write` and buffers the data,
emitting the compressed payload plus the stream trailer during `Close`; the
reader validates the header at open and decodes exactly the complete streams
the writer produces, reporting an unexpected EOF on a truncated stream.  The
payload transform here is the identity plus a length trailer — enough to make
the contract concrete while keeping every definition executable. -/
def gzModel : Compression where
  openWriterFails := false
  writeFails := false
  writeEmit := fun _ => [31, 139]
  closeEmit := fun data => data ++ [data.length % 256]
  openReaderFails := fun s => decide (s.take 2 ≠ [31, 139])
  readAll := fun s =>
    let rest := s.drop 2
    if h : rest = [] then
      .error "unexpected EOF"
    else
      let body := rest.dropLast
      if rest.getLast h = body.length % 256 then
        .ok body
      else
        .error "unexpected EOF"

/-! ### Filter builders (part_000: ExcludeFilesFilter / IncludeFilesFilter)

Go's `regexp` package is external; we model it by an abstract engine with a
fallible `compile` and a boolean `matchString`, over an arbitrary type of
compiled regexes. -/
structure RegexEngine (ρ : Type) where
  compile : String → Except String ρ
  matchString : ρ → String → Bool

/-- The compile loop both filter builders run: compile each pattern in order,
returning the first compile error and otherwise the list of compiled
regexes (Go fills a pre-allocated slice; a failure returns `(nil, err)`
immediately). -/
def compileAll (E : RegexEngine ρ) : List String → Except String (List ρ)
  | [] => .ok []
  | p :: ps =>
    match E.compile p with
    | .error e => .error e
    | .ok re =>
      match compileAll E ps with
      | .error e => .error e
      | .ok res => .ok (re :: res)

/-- The `ExcludeFilesFilter` function of `part_000`: compiles every pattern
and, on success, returns the predicate that scans the compiled regexes and
reports `true` (exclude) at the first match, `false` if none matches. -/
def ExcludeFilesFilter (E : RegexEngine ρ) (excludePatterns : List String) :
    Except String (String → Bool) :=
  match compileAll E excludePatterns with
  | .error e => .error e
  | .ok excludeRegexes =>
    .ok (fun name => excludeRegexes.any (fun re => E.matchString re name))

/-- The `IncludeFilesFilter` function of `part_000`: compiles every pattern
and, on success, returns the predicate that reports `false` (keep) at the
first match and `true` (exclude) if no pattern matches. -/
def IncludeFilesFilter (E : RegexEngine ρ) (includePatterns : List String) :
    Except String (String → Bool) :=
  match compileAll E includePatterns with
  | .error e => .error e
  | .ok includeRegexes =>
    .ok (fun name => !includeRegexes.any (fun re => E.matchString re name))

/-- Pattern `p` matches `name`: its compiled regex matches. -/
def patternMatches (E : RegexEngine ρ) (p name : String) : Bool :=
  match E.compile p with
  | .ok re => E.matchString re name
  | .error _ => false

/-! ### Filesystem model (part_000 / archiver.go: Archive, ArchiveWithFilter)

The filesystem is a state record: which paths exist, which operations fail
there, and what the external library's `FilesFromDisk` enumeration would
yield.  Archive runs return the result, the final state, and the trace of
externally visible operations in the order they were performed. -/

/-- One entry of the external library's enumeration; the repository's code
only ever reads its `Name()`. -/
structure FileInfo where
  name : String
deriving DecidableEq

/-- Filesystem state plus the behaviour of the external operations. -/
structure FS where
  present : String → Bool
  removeFails : String → Bool
  createFails : String → Bool
  enumFails : Bool
  enumResult : List FileInfo
  streamFails : Bool

/-- Go's `os.RemoveAll`: a non-existent path is not an error; otherwise the
removal can fail (e.g. permission denied) and on success the path is gone. -/
def removeAll (fs : FS) (p : String) : Except String FS :=
  if fs.present p = false then .ok fs
  else if fs.removeFails p then .error "remove failed"
  else .ok { fs with present := fun q => if q = p then false else fs.present q }

/-- The `isExist` helper of `part_000`: `os.Stat` did not report
"not exist". -/
def isExist (fs : FS) (path : String) : Bool :=
  fs.present path

/-- Go's `os.Create`: can fail; on success the path exists (created or
truncated). -/
def create (fs : FS) (p : String) : Except String FS :=
  if fs.createFails p then .error "create failed"
  else .ok { fs with present := fun q => if q = p then true else fs.present q }

/-- Externally visible operations of an archive run, in execution order. -/
inductive Event
  | removeAllEv (path : String)
  | statEv (dir : String)
  | enumerateEv (dir archiveDirName : String)
  | createEv (path : String)
  | streamEv (outfile : String) (entries : List FileInfo)
deriving DecidableEq

/-- The error classes an archive run can report (the spec's taxonomy:
IOError on remove, NotFoundError, EnumerationError, IOError on create,
ArchivalError). -/
inductive ArcError
  | ioRemove (path : String)
  | notFound (dir : String)
  | enumError (dir : String)
  | ioCreate (path : String)
  | archivalError (path : String)
deriving DecidableEq

/-- The top-level name computation shared by `Archive` and
`ArchiveWithFilter` in `part_000`:
`archiveDirName := filepath.Base(filepath.Clean(dir))`, overwritten with the
empty string when `dir` is literally `"."`. -/
def archiveDirNameOf (dir : String) : String :=
  if dir = "." then "" else GoPath.Base (GoPath.Clean dir)

/-- The v2 `Archive` of `part_000`: remove the destination (propagating a
failure), check the source exists, compute `archiveDirName`, enumerate via
the external library, create the destination file, and stream the archive. -/
def Archive (fs : FS) (dir outfile : String) :
    Except ArcError Unit × FS × List Event :=
  match removeAll fs outfile with
  | .error _ => (.error (.ioRemove outfile), fs, [.removeAllEv outfile])
  | .ok fs1 =>
    if isExist fs1 dir = false then
      (.error (.notFound dir), fs1, [.removeAllEv outfile, .statEv dir])
    else
      let archiveDirName := archiveDirNameOf dir
      if fs1.enumFails then
        (.error (.enumError dir), fs1,
          [.removeAllEv outfile, .statEv dir, .enumerateEv dir archiveDirName])
      else
        let files := fs1.enumResult
        match create fs1 outfile with
        | .error _ =>
          (.error (.ioCreate outfile), fs1,
            [.removeAllEv outfile, .statEv dir, .enumerateEv dir archiveDirName,
              .createEv outfile])
        | .ok fs2 =>
          if fs2.streamFails then
            (.error (.archivalError outfile), fs2,
              [.removeAllEv outfile, .statEv dir, .enumerateEv dir archiveDirName,
                .createEv outfile, .streamEv outfile files])
          else
            (.ok (), fs2,
              [.removeAllEv outfile, .statEv dir, .enumerateEv dir archiveDirName,
                .createEv outfile, .streamEv outfile files])

/-- The `ArchiveWithFilter` function of `part_000`: identical to `Archive`
except that the enumerated entries are filtered — the Go loop appends `fi`
to `filteredFiles` whenever `!filter(fi.Name())` — and the filtered list is
streamed. -/
def ArchiveWithFilter (fs : FS) (dir outfile : String) (filter : String → Bool) :
    Except ArcError Unit × FS × List Event :=
  match removeAll fs outfile with
  | .error _ => (.error (.ioRemove outfile), fs, [.removeAllEv outfile])
  | .ok fs1 =>
    if isExist fs1 dir = false then
      (.error (.notFound dir), fs1, [.removeAllEv outfile, .statEv dir])
    else
      let archiveDirName := archiveDirNameOf dir
      if fs1.enumFails then
        (.error (.enumError dir), fs1,
          [.removeAllEv outfile, .statEv dir, .enumerateEv dir archiveDirName])
      else
        let files := fs1.enumResult
        let filteredFiles :=
          files.foldl (fun acc fi => if filter fi.name = false then acc ++ [fi] else acc) []
        match create fs1 outfile with
        | .error _ =>
          (.error (.ioCreate outfile), fs1,
            [.removeAllEv outfile, .statEv dir, .enumerateEv dir archiveDirName,
              .createEv outfile])
        | .ok fs2 =>
          if fs2.streamFails then
            (.error (.archivalError outfile), fs2,
              [.removeAllEv outfile, .statEv dir, .enumerateEv dir archiveDirName,
                .createEv outfile, .streamEv outfile filteredFiles])
          else
            (.ok (), fs2,
              [.removeAllEv outfile, .statEv dir, .enumerateEv dir archiveDirName,
                .createEv outfile, .streamEv outfile filteredFiles])

/-- The legacy v1 `Archive` of `archiver.go`: same steps, but the error of
`os.RemoveAll(outfile)` is discarded — the run continues whether or not the
removal succeeded. -/
def ArchiveV1 (fs : FS) (dir outfile : String) :
    Except ArcError Unit × FS × List Event :=
  let fs1 :=
    match removeAll fs outfile with
    | .error _ => fs
    | .ok fs2 => fs2
  if isExist fs1 dir = false then
    (.error (.notFound dir), fs1, [.removeAllEv outfile, .statEv dir])
  else
    let archiveDirName := archiveDirNameOf dir
    if fs1.enumFails then
      (.error (.enumError dir), fs1,
        [.removeAllEv outfile, .statEv dir, .enumerateEv dir archiveDirName])
    else
      let files := fs1.enumResult
      match create fs1 outfile with
      | .error _ =>
        (.error (.ioCreate outfile), fs1,
          [.removeAllEv outfile, .statEv dir, .enumerateEv dir archiveDirName,
            .createEv outfile])
      | .ok fs2 =>
        if fs2.streamFails then
          (.error (.archivalError outfile), fs2,
            [.removeAllEv outfile, .statEv dir, .enumerateEv dir archiveDirName,
              .createEv outfile, .streamEv outfile files])
        else
          (.ok (), fs2,
            [.removeAllEv outfile, .statEv dir, .enumerateEv dir archiveDirName,
              .createEv outfile, .streamEv outfile files])

/-! ### Concrete filesystem states used by witnesses and counterexamples -/

/-- Destination `"o"` and source `"d"` both exist, and removing `"o"`
fails. -/
def fsRemoveFail : FS where
  present := fun p => p == "d" || p == "o"
  removeFails := fun p => p == "o"
  createFails := fun _ => false
  enumFails := false
  enumResult := []
  streamFails := false

/-- Destination `"o"` exists, source `"d"` does not, nothing fails. -/
def fsNFW : FS where
  present := fun p => p == "o"
  removeFails := fun _ => false
  createFails := fun _ => false
  enumFails := false
  enumResult := []
  streamFails := false

/-- The directory `"./"` exists, nothing else does, nothing fails. -/
def fsDot : FS where
  present := fun p => p == "./"
  removeFails := fun _ => false
  createFails := fun _ => false
  enumFails := false
  enumResult := []
  streamFails := false

/-- The directory `"foo"` exists, nothing else does, nothing fails. -/
def fsFoo : FS where
  present := fun p => p == "foo"
  removeFails := fun _ => false
  createFails := fun _ => false
  enumFails := false
  enumResult := []
  streamFails := false

/-- The directory `"d"` exists and enumerates to `a.txt` and `b.bin`. -/
def fsTwoFiles : FS where
  present := fun p => p == "d"
  removeFails := fun _ => false
  createFails := fun _ => false
  enumFails := false
  enumResult := [⟨"a.txt"⟩, ⟨"b.bin"⟩]
  streamFails := false

end Arc

namespace Arc

/-! ### Theorems -/

/-- The model reader decodes the complete streams the model writer
produces. -/
theorem gzModel_readAll (data : List Nat) :
    gzModel.readAll (31 :: 139 :: (data ++ [data.length % 256])) = .ok data := by
  show (let rest := (31 :: 139 :: (data ++ [data.length % 256])).drop 2
    if h : rest = [] then (Except.error "unexpected EOF" : Except String (List Nat))
    else
      let body := rest.dropLast
      if rest.getLast h = body.length % 256 then .ok body
      else .error "unexpected EOF") = .ok data
  simp only [List.drop_succ_cons, List.drop_zero]
  rw [dif_neg (by simp)]
  simp [List.dropLast_concat, List.getLast_concat]

/-- The external library's round-trip contract holds for the model: reading
back the complete stream the writer produced (writes followed by `Close`)
recovers the original bytes. -/
theorem gzModel_library_roundtrip (data : List Nat) :
    Decompress gzModel (gzModel.writeEmit data ++ gzModel.closeEmit data) =
      .ok data := by
  have harg : gzModel.writeEmit data ++ gzModel.closeEmit data
      = 31 :: 139 :: (data ++ [data.length % 256]) := rfl
  rw [harg]
  unfold Decompress
  have hfail : gzModel.openReaderFails
      (31 :: 139 :: (data ++ [data.length % 256])) = false := by
    simp [gzModel]
  rw [hfail]
  simpa using gzModel_readAll data

/-- **C9** (confirmed).  The byte slice `Compress` returns is a snapshot of
the in-memory sink taken when the return expression is evaluated, before the
deferred `Close` of the compression writer runs: the returned slice is exactly
the bytes emitted during `Write`, while the final sink holds those bytes
followed by the bytes `Close` emits (final block flush, stream trailer), which
are therefore not part of the returned slice. -/
theorem compress_returns_preclose_snapshot (c : Compression) (data : List Nat)
    (hOpen : c.openWriterFails = false) (hWrite : c.writeFails = false) :
    Compress c data = .ok (c.writeEmit data) ∧
      (CompressRun c data).2 = c.writeEmit data ++ c.closeEmit data := by
  unfold Compress CompressRun
  rw [hOpen, hWrite]
  exact ⟨rfl, rfl⟩

/-- Witness for C9 at the concrete model format and buffer `[1, 2]`:
the returned slice is the header alone, while the sink ends with the payload
and trailer that `Close` emitted after the snapshot. -/
theorem compress_returns_preclose_snapshot_witness :
    Compress gzModel [1, 2] = .ok [31, 139] ∧
      (CompressRun gzModel [1, 2]).2 = [31, 139] ++ ([1, 2] ++ [2]) :=
  compress_returns_preclose_snapshot gzModel [1, 2] rfl rfl

/-- **C1** (code bug).  The spec's round-trip property
`Decompress (Compress b f) f = b` fails on the code: `Compress` evaluates
`compressedBuf.Bytes()` before the deferred `compressor.Close()` runs, so the
returned bytes lack everything the writer emits at `Close` and the reader
rejects them (unexpected EOF), here at the concrete buffer `[104, 105]`.
Had `Compress` returned the sink's contents after `Close` — the complete
stream — the round-trip would succeed, as the second conjunct shows. -/
theorem compress_decompress_roundtrip_fails :
    Decompress gzModel ((Compress gzModel [104, 105]).toOption.getD []) =
        .error "unexpected EOF" ∧
      Decompress gzModel ((CompressRun gzModel [104, 105]).2) =
        .ok [104, 105] := by
  constructor
  · rfl
  · simpa using gzModel_library_roundtrip [104, 105]

theorem compileAll_ok_any (E : RegexEngine ρ) (name : String) :
    ∀ (pats : List String) (res : List ρ), compileAll E pats = .ok res →
      (res.any (fun re => E.matchString re name) = true ↔
        ∃ p ∈ pats, patternMatches E p name = true)
  | [], res, h => by
    cases h
    simp
  | p :: ps, res, h => by
    unfold compileAll at h
    cases hc : E.compile p with
    | error e => rw [hc] at h; cases h
    | ok re =>
      rw [hc] at h
      cases hr : compileAll E ps with
      | error e => rw [hr] at h; cases h
      | ok res2 =>
        rw [hr] at h
        cases h
        have ih := compileAll_ok_any E name ps res2 hr
        simp only [List.any_cons, List.mem_cons, Bool.or_eq_true, ih]
        constructor
        · rintro (hm | ⟨q, hq, hqm⟩)
          · exact ⟨p, Or.inl rfl, by simp [patternMatches, hc, hm]⟩
          · exact ⟨q, Or.inr hq, hqm⟩
        · rintro ⟨q, hq | hq, hqm⟩
          · subst hq
            simp only [patternMatches, hc] at hqm
            exact Or.inl hqm
          · exact Or.inr ⟨q, hq, hqm⟩

/-- **C2** (confirmed).  Whenever `ExcludeFilesFilter` succeeds (the empty
pattern list included), the returned predicate reports `true` (exclude) for a
name iff at least one pattern in the list matches it; in particular the
predicate built from the empty pattern list reports `false` for every name. -/
theorem excludeFilesFilter_spec (E : RegexEngine ρ) (pats : List String)
    (f : String → Bool) (name : String)
    (h : ExcludeFilesFilter E pats = .ok f) :
    (f name = true ↔ ∃ p ∈ pats, patternMatches E p name = true) ∧
      (pats = [] → f name = false) := by
  unfold ExcludeFilesFilter at h
  cases hc : compileAll E pats with
  | error e => rw [hc] at h; cases h
  | ok res =>
    rw [hc] at h
    cases h
    refine ⟨compileAll_ok_any E name pats res hc, ?_⟩
    rintro rfl
    cases hc
    simp

/-- Witness for C2: with a literal-equality engine and patterns
`["a", "b"]`, the predicate excludes the name `"b"`, so some pattern
matches it. -/
theorem excludeFilesFilter_spec_witness :
    ∃ p ∈ ["a", "b"],
      patternMatches ⟨fun s => .ok s, fun r n => r == n⟩ p "b" = true := by
  have h := excludeFilesFilter_spec ⟨fun s => .ok s, fun r n => r == n⟩
    ["a", "b"] (fun name => (["a", "b"] : List String).any (fun re => re == name))
    "b" rfl
  exact h.1.mp (by decide)

/-- **C3** (confirmed).  Whenever `IncludeFilesFilter` succeeds, the returned
predicate reports `false` (keep) for a name iff some pattern in the list
matches it; the predicate built from the empty pattern list reports `true`
(exclude) for every name — an empty include list excludes everything. -/
theorem includeFilesFilter_spec (E : RegexEngine ρ) (pats : List String)
    (f : String → Bool) (name : String)
    (h : IncludeFilesFilter E pats = .ok f) :
    (f name = false ↔ ∃ p ∈ pats, patternMatches E p name = true) ∧
      (pats = [] → f name = true) := by
  unfold IncludeFilesFilter at h
  cases hc : compileAll E pats with
  | error e => rw [hc] at h; cases h
  | ok res =>
    rw [hc] at h
    cases h
    constructor
    · rw [← compileAll_ok_any E name pats res hc]
      simp
    · rintro rfl
      cases hc
      simp

/-- Witness for C3: with a literal-equality engine and patterns
`["a", "b"]`, the predicate keeps the name `"b"` (reports `false`), so some
pattern matches it. -/
theorem includeFilesFilter_spec_witness :
    ∃ p ∈ ["a", "b"],
      patternMatches ⟨fun s => .ok s, fun r n => r == n⟩ p "b" = true := by
  have h := includeFilesFilter_spec ⟨fun s => .ok s, fun r n => r == n⟩
    ["a", "b"] (fun name => !(["a", "b"] : List String).any (fun re => re == name))
    "b" rfl
  exact h.1.mp (by decide)

theorem compileAll_error_of_bad (E : RegexEngine ρ) :
    ∀ pats : List String, (∃ p ∈ pats, ∃ e, E.compile p = .error e) →
      ∃ e, compileAll E pats = .error e
  | [], h => by simp at h
  | p :: ps, h => by
    unfold compileAll
    cases hc : E.compile p with
    | error e => exact ⟨e, rfl⟩
    | ok re =>
      obtain ⟨q, hq, e, he⟩ := h
      rcases List.mem_cons.mp hq with hq | hq
      · subst hq
        rw [hc] at he
        cases he
      · obtain ⟨e2, he2⟩ := compileAll_error_of_bad E ps ⟨q, hq, e, he⟩
        rw [he2]
        exact ⟨e2, rfl⟩

/-- **C4** (confirmed).  If any pattern in the list fails to compile, both
`ExcludeFilesFilter` and `IncludeFilesFilter` return an error and no
predicate: the result is an `error` carrying no function, so no partial
filter built from the patterns that did compile is ever handed back. -/
theorem filters_fail_on_bad_pattern (E : RegexEngine ρ) (pats : List String)
    (h : ∃ p ∈ pats, ∃ e, E.compile p = .error e) :
    (∃ e, ExcludeFilesFilter E pats = .error e) ∧
      (∃ e, IncludeFilesFilter E pats = .error e) := by
  obtain ⟨e, he⟩ := compileAll_error_of_bad E pats h
  exact ⟨⟨e, by unfold ExcludeFilesFilter; rw [he]⟩,
    ⟨e, by unfold IncludeFilesFilter; rw [he]⟩⟩

/-- Witness for C4: an engine that rejects the pattern `"["` makes both
builders fail on the list `["a", "["]`. -/
theorem filters_fail_on_bad_pattern_witness :
    (∃ e, ExcludeFilesFilter
      ⟨fun s => if s = "[" then .error "missing closing bracket" else .ok s,
        fun r n => r == n⟩ ["a", "["] = .error e) ∧
      (∃ e, IncludeFilesFilter
        ⟨fun s => if s = "[" then .error "missing closing bracket" else .ok s,
          fun r n => r == n⟩ ["a", "["] = .error e) :=
  filters_fail_on_bad_pattern _ ["a", "["]
    ⟨"[", by decide, "missing closing bracket", rfl⟩

theorem removeAll_ok_enumResult (fs fs2 : FS) (p : String)
    (h : removeAll fs p = .ok fs2) :
    fs2.enumResult = fs.enumResult ∧ fs2.enumFails = fs.enumFails := by
  unfold removeAll at h
  split at h
  · cases h; exact ⟨rfl, rfl⟩
  · split at h
    · cases h
    · cases h; exact ⟨rfl, rfl⟩

theorem removeAll_ok_of_not_fail (fs : FS) (p : String)
    (h : ¬(fs.present p = true ∧ fs.removeFails p = true)) :
    removeAll fs p = .ok fs ∨
      removeAll fs p =
        .ok { fs with present := fun q => if q = p then false else fs.present q } := by
  unfold removeAll
  cases hp : fs.present p
  · left; simp
  · cases hr : fs.removeFails p
    · right; simp
    · exact absurd ⟨hp, hr⟩ h

theorem archive_ok_branch_ne_ioRemove (fs fs1 : FS) (dir outfile : String)
    (hra : removeAll fs outfile = .ok fs1) :
    (Archive fs dir outfile).1 ≠ .error (.ioRemove outfile) := by
  unfold Archive
  rw [hra]
  repeat' split
  all_goals simp_all

/-- **C5** (corrected — the amended claim).  Both the v2 `Archive` and the
legacy v1 `Archive` perform the destination removal as their first step.  In
the v2 implementation the call returns the removal IOError exactly when the
removal itself fails — a non-existent destination is not an error and never
triggers it — so a removal failure there is always propagated.  (The original
claim's "a removal failure is never silently swallowed" fails for the legacy
v1 `Archive` of `archiver.go`, which discards `os.RemoveAll`'s error; see the
counterexample.) -/
theorem archive_removes_destination_first (fs : FS) (dir outfile : String) :
    ((Archive fs dir outfile).2.2).head? = some (.removeAllEv outfile) ∧
      ((Archive fs dir outfile).1 = .error (.ioRemove outfile) ↔
        fs.present outfile = true ∧ fs.removeFails outfile = true) ∧
      ((ArchiveV1 fs dir outfile).2.2).head? = some (.removeAllEv outfile) := by
  refine ⟨?_, ?_, ?_⟩
  · unfold Archive
    repeat' split
    all_goals rfl
  · by_cases hfail : fs.present outfile = true ∧ fs.removeFails outfile = true
    · obtain ⟨hp, hr⟩ := hfail
      have hra : removeAll fs outfile = .error "remove failed" := by
        unfold removeAll; rw [hp, hr]; simp
      unfold Archive; rw [hra]
      simp [hp, hr]
    · rcases removeAll_ok_of_not_fail fs outfile hfail with hra | hra
      all_goals {
        constructor
        · intro h
          exact absurd h (archive_ok_branch_ne_ioRemove fs _ dir outfile hra)
        · intro h
          exact absurd h hfail }
  · unfold ArchiveV1
    dsimp only
    repeat' split
    all_goals rfl

/-- Counterexample for C5 as stated: a state where the destination exists and
its removal fails, yet the legacy v1 `Archive` reports success — the removal
failure is silently swallowed there, while the v2 `Archive` propagates it. -/
theorem archiveV1_swallows_remove_failure :
    fsRemoveFail.present "o" = true ∧ fsRemoveFail.removeFails "o" = true ∧
      (ArchiveV1 fsRemoveFail "d" "o").1 = .ok () ∧
      (Archive fsRemoveFail "d" "o").1 = .error (.ioRemove "o") :=
  ⟨rfl, rfl, rfl, rfl⟩

/-- **C6** (confirmed).  When the source directory does not exist (and the
destination-removal step itself does not fail, which per the spec's step
order would return an IOError first), `Archive` returns the NotFoundError,
its trace stops right after the removal and the existence check — so no
enumeration and no file creation happened — and the destination path does not
exist in the final state: no destination file was created by the call. -/
theorem archive_notFound_spec (fs : FS) (dir outfile : String)
    (hdir : fs.present dir = false)
    (hrem : ¬(fs.present outfile = true ∧ fs.removeFails outfile = true)) :
    (Archive fs dir outfile).1 = .error (.notFound dir) ∧
      (Archive fs dir outfile).2.2 = [.removeAllEv outfile, .statEv dir] ∧
      ((Archive fs dir outfile).2.1).present outfile = false := by
  cases hp : fs.present outfile with
  | false =>
    have hra : removeAll fs outfile = .ok fs := by
      unfold removeAll; rw [hp]; simp
    unfold Archive
    rw [hra]
    simp [isExist, hdir, hp]
  | true =>
    have hr : fs.removeFails outfile = false := by
      cases h : fs.removeFails outfile
      · rfl
      · exact absurd ⟨hp, h⟩ hrem
    have hra : removeAll fs outfile =
        .ok { fs with present := fun q => if q = outfile then false else fs.present q } := by
      unfold removeAll; rw [hp, hr]; simp
    unfold Archive
    rw [hra]
    simp [isExist, hdir]

/-- Witness for C6: source `"d"` missing, destination `"o"` pre-existing and
removable — the run fails with the NotFoundError, performed only the removal
and the stat, and left no destination file. -/
theorem archive_notFound_spec_witness :
    (Archive fsNFW "d" "o").1 = .error (.notFound "d") ∧
      (Archive fsNFW "d" "o").2.2 = [.removeAllEv "o", .statEv "d"] ∧
      ((Archive fsNFW "d" "o").2.1).present "o" = false :=
  archive_notFound_spec fsNFW "d" "o" rfl (by decide)

theorem archive_enum_key (fs fs1 : FS) (dir outfile : String)
    (hra : removeAll fs outfile = .ok fs1) (hp : fs1.present dir = true) :
    Event.enumerateEv dir (archiveDirNameOf dir) ∈ (Archive fs dir outfile).2.2 := by
  unfold Archive
  rw [hra]
  simp only [isExist, hp]
  repeat' split
  all_goals simp_all

theorem archiveWithFilter_enum_key (fs fs1 : FS) (dir outfile : String)
    (filter : String → Bool)
    (hra : removeAll fs outfile = .ok fs1) (hp : fs1.present dir = true) :
    Event.enumerateEv dir (archiveDirNameOf dir) ∈
      (ArchiveWithFilter fs dir outfile filter).2.2 := by
  unfold ArchiveWithFilter
  rw [hra]
  simp only [isExist, hp]
  repeat' split
  all_goals simp_all

/-- **C7** (corrected — the amended claim).  Whenever `Archive` or
`ArchiveWithFilter` reaches the enumeration step, the top-level name it
passes for nesting is `filepath.Base (filepath.Clean dir)`, except when `dir`
is literally the string `"."`, in which case it is empty.  (The original
claim's "this covers any spelling of the current directory, e.g. `./`" is
false: only the literal `"."` gets the empty prefix; see the
counterexample.) -/
theorem archive_enumerates_under_base_clean (fs : FS) (dir outfile : String)
    (filter : String → Bool)
    (hdir : fs.present dir = true) (hne : dir ≠ outfile)
    (hrem : ¬(fs.present outfile = true ∧ fs.removeFails outfile = true)) :
    Event.enumerateEv dir (if dir = "." then "" else GoPath.Base (GoPath.Clean dir))
        ∈ (Archive fs dir outfile).2.2 ∧
      Event.enumerateEv dir (if dir = "." then "" else GoPath.Base (GoPath.Clean dir))
        ∈ (ArchiveWithFilter fs dir outfile filter).2.2 := by
  rcases removeAll_ok_of_not_fail fs outfile hrem with hra | hra
  · exact ⟨archive_enum_key fs fs dir outfile hra hdir,
      archiveWithFilter_enum_key fs fs dir outfile filter hra hdir⟩
  · have hp : ({ fs with
        present := fun q => if q = outfile then false else fs.present q } : FS).present dir
        = true := by
      simp [hne, hdir]
    exact ⟨archive_enum_key fs _ dir outfile hra hp,
      archiveWithFilter_enum_key fs _ dir outfile filter hra hp⟩

/-- Witness for C7's amended claim: archiving the directory `"foo"` nests
entries under `Base (Clean "foo")`. -/
theorem archive_enumerates_under_base_clean_witness :
    Event.enumerateEv "foo" (if "foo" = "." then "" else GoPath.Base (GoPath.Clean "foo"))
        ∈ (Archive fsFoo "foo" "o").2.2 ∧
      Event.enumerateEv "foo" (if "foo" = "." then "" else GoPath.Base (GoPath.Clean "foo"))
        ∈ (ArchiveWithFilter fsFoo "foo" "o" (fun _ => false)).2.2 :=
  archive_enumerates_under_base_clean fsFoo "foo" "o" (fun _ => false) rfl
    (by decide) (by decide)

/-- Counterexample for C7 as stated: archiving the current directory spelled
`"./"` nests entries under the name `"."` — `Base (Clean "./") = "."` and
`"./"` is not the literal `"."` — not at the archive root; the empty nesting
prefix the claim promises is never passed. -/
theorem archive_dotSlash_not_at_root :
    Event.enumerateEv "./" "." ∈ (Archive fsDot "./" "out").2.2 ∧
      Event.enumerateEv "./" "" ∉ (Archive fsDot "./" "out").2.2 ∧
      GoPath.Base (GoPath.Clean "./") = "." ∧ ("." : String) ≠ "" := by
  decide

theorem foldl_filter_eq (filter : String → Bool) :
    ∀ (l acc : List FileInfo),
      List.foldl (fun acc fi => if filter fi.name = false then acc ++ [fi] else acc) acc l =
        acc ++ l.filter (fun fi => !filter fi.name)
  | [], acc => by simp
  | fi :: l, acc => by
    rw [List.foldl_cons]
    by_cases h : filter fi.name = false
    · rw [if_pos h, foldl_filter_eq filter l (acc ++ [fi]), List.filter_cons]
      simp [h]
    · have h2 : filter fi.name = true := by
        cases hx : filter fi.name
        · exact absurd hx h
        · rfl
      rw [if_neg h, foldl_filter_eq filter l acc, List.filter_cons]
      simp [h2]

/-- **C8** (confirmed).  Whatever entry list `ArchiveWithFilter` hands to the
archiving (streaming) step is exactly the filter of the enumerated list that
keeps the entries whose name the predicate reports `false` (not excluded),
in their original relative order: it equals `List.filter` of the enumeration
result. -/
theorem archiveWithFilter_streams_exactly_kept (fs : FS) (dir outfile : String)
    (filter : String → Bool) (target : String) (entries : List FileInfo)
    (h : Event.streamEv target entries ∈ (ArchiveWithFilter fs dir outfile filter).2.2) :
    entries = fs.enumResult.filter (fun fi => !filter fi.name) := by
  unfold ArchiveWithFilter at h
  cases hra : removeAll fs outfile with
  | error e => rw [hra] at h; simp at h
  | ok fs1 =>
    rw [hra] at h
    have henum := (removeAll_ok_enumResult fs fs1 outfile hra).1
    dsimp only at h
    split at h
    · simp at h
    · split at h
      · simp at h
      · split at h
        · simp at h
        · split at h
          all_goals {
            simp at h
            rw [h.2, foldl_filter_eq, henum]
            simp }

/-- Witness for C8: over a directory enumerating `a.txt` and `b.bin`, with
the predicate excluding `b.bin`, the streamed list is exactly `[a.txt]`. -/
theorem archiveWithFilter_streams_exactly_kept_witness :
    ([⟨"a.txt"⟩] : List FileInfo) =
      ([⟨"a.txt"⟩, ⟨"b.bin"⟩] : List FileInfo).filter (fun fi => !(fi.name == "b.bin")) :=
  archiveWithFilter_streams_exactly_kept fsTwoFiles "d" "o" (fun n => n == "b.bin") "o"
    [⟨"a.txt"⟩] (by decide)

/-- **C10** (confirmed).  When a file exists at the destination but the
source directory does not, both `Archive` and `ArchiveWithFilter` return an
error (the NotFoundError) and the pre-existing destination file has
nonetheless been deleted: removal happens before source validation, so the
destination path no longer exists in the final state. -/
theorem archive_deletes_dest_despite_missing_source (fs : FS) (dir outfile : String)
    (filter : String → Bool)
    (hout : fs.present outfile = true)
    (hrem : fs.removeFails outfile = false)
    (hdir : fs.present dir = false) :
    ((Archive fs dir outfile).1 = .error (.notFound dir) ∧
      ((Archive fs dir outfile).2.1).present outfile = false) ∧
      ((ArchiveWithFilter fs dir outfile filter).1 = .error (.notFound dir) ∧
        ((ArchiveWithFilter fs dir outfile filter).2.1).present outfile = false) := by
  have hra : removeAll fs outfile =
      .ok { fs with present := fun q => if q = outfile then false else fs.present q } := by
    unfold removeAll; rw [hout, hrem]; simp
  constructor
  · unfold Archive; rw [hra]; simp [isExist, hdir]
  · unfold ArchiveWithFilter; rw [hra]; simp [isExist, hdir]

/-- Witness for C10: destination `"o"` pre-existing, source `"d"` missing —
both runs fail with the NotFoundError and the destination file is gone. -/
theorem archive_deletes_dest_despite_missing_source_witness :
    ((Archive fsNFW "d" "o").1 = .error (.notFound "d") ∧
      ((Archive fsNFW "d" "o").2.1).present "o" = false) ∧
      ((ArchiveWithFilter fsNFW "d" "o" (fun _ => false)).1 = .error (.notFound "d") ∧
        ((ArchiveWithFilter fsNFW "d" "o" (fun _ => false)).2.1).present "o" = false) :=
  archive_deletes_dest_despite_missing_source fsNFW "d" "o" (fun _ => false) rfl rfl rfl

end Arc
